import Mathlib

/-!
Shallow embedding of the `codecrafters-http-server-rust` program
(`src/main.rs`) and verification of its specification claims.

The connection byte stream is modelled as a `List Char`, one entry per byte
(exact for ASCII streams; the source's `lines()` iterator unwraps each line
and so already requires UTF-8 input). Rust `String`s become Lean `String`s;
`String::len`, which counts bytes, becomes `String.utf8ByteSize`. The
standard-library filesystem (`fs::write`, `fs::read_to_string`) is modelled
as an explicit association list threaded through the handlers. Fallible
Rust functions returning `Result` become `Option`-valued functions (`none`
is the error case).
-/

namespace HttpSrv

/-- Substring test on character lists: `charsContain pat l` holds iff `pat`
occurs contiguously inside `l`. Models Rust `str::contains` /
`nom::FindSubstring::find_substring(..).is_some()`. -/
def charsContain (pat : List Char) : List Char → Bool
  | [] => pat.isEmpty
  | c :: rest => pat.isPrefixOf (c :: rest) || charsContain pat rest

/-- `hasSubstr s pat`: `pat` occurs as a contiguous substring of `s`. -/
def hasSubstr (s pat : String) : Bool :=
  charsContain pat.toList s.toList

/-- Models Rust `str::strip_prefix`: `some` of the remainder when `p` is a
prefix of `s`, otherwise `none`. -/
def rust_strip (s p : String) : Option String :=
  if p.toList.isPrefixOf s.toList then some (String.mk (s.toList.drop p.toList.length))
  else none

/-- Models Rust `str::starts_with`. -/
def rust_starts_with (s p : String) : Bool :=
  p.toList.isPrefixOf s.toList

/-- Core of `split_whitespace` over characters: `acc` is the reversed
current token. Whitespace ends the current token (if any); no empty tokens
are produced. -/
def words_aux (acc : List Char) : List Char → List (List Char)
  | [] => if acc.isEmpty then [] else [acc.reverse]
  | c :: rest =>
      if c.isWhitespace then
        if acc.isEmpty then words_aux [] rest
        else acc.reverse :: words_aux [] rest
      else words_aux (c :: acc) rest

/-- Models Rust `str::split_whitespace`: whitespace-delimited tokens, no
empty tokens. -/
def rust_split_whitespace (s : String) : List String :=
  (words_aux [] s.toList).map String.mk

/-- Models Rust `str::parse::<usize>()`: an optional leading `+`, then one
or more ASCII digits, value below `2 ^ 64`. -/
def rust_parse_usize (s : String) : Option Nat :=
  let t := if "+".toList.isPrefixOf s.toList then s.drop 1 else s
  if t.isEmpty then none
  else if t.toList.all Char.isDigit then
    let n := t.toList.foldl (fun acc c => acc * 10 + (c.toNat - 48)) 0
    if n < 2 ^ 64 then some n else none
  else none

/-- Drop a single trailing carriage return, as `BufRead::lines` does after
removing the terminating newline. -/
def stripTrailingCR (l : List Char) : List Char :=
  if l.getLast? = some '\r' then l.dropLast else l

/-- Models Rust `str::lines`: split at `\n`, a `\r` immediately before a
`\n` is removed, a final line terminator is optional, and the empty string
has no lines. -/
def rust_lines (s : String) : List String :=
  let ps := (s.toList.splitOn '\n')
  if ps.getLast? = some [] then
    ps.dropLast.map (fun l => String.mk (stripTrailingCR l))
  else
    ps.dropLast.map (fun l => String.mk (stripTrailingCR l)) ++
      (ps.getLast?.map String.mk).toList

/-- The served-directory filesystem, modelled as an association list from
full paths to file contents (most recent write first). -/
abbrev Fs := List (String × String)

/-- Models `fs::read_to_string`: the contents at `p`, if the file exists. -/
def fs_read (fs : Fs) (p : String) : Option String :=
  (List.find? (fun kv => kv.1 = p) fs).map (fun kv => kv.2)

/-- Models `fs::write`: create or overwrite the file at `p`. -/
def fs_write (fs : Fs) (p v : String) : Fs :=
  (p, v) :: fs

/-- Models `PathBuf::join` for the relative paths this server produces. -/
def path_join (dir file : String) : String :=
  dir ++ "/" ++ file

/-- The `ContentType` enum of the source. -/
inductive ContentType
  | TextPlain
  | ApplicationOctetStream

/-- The `StatusLine` enum of the source. -/
inductive StatusLine
  | Ok (body : Option String) (ct : ContentType)
  | Created (ct : ContentType)
  | NotFound

/-- The string each `ContentType` variant renders to in `get_message`. -/
def ContentType.str : ContentType → String
  | .TextPlain => "text/plain"
  | .ApplicationOctetStream => "application/octet-stream"

/-- `impl Message for StatusLine { fn get_message(&self) -> Vec<u8> }`:
serialize a response to wire bytes. `body.len()` counts bytes, hence
`String.utf8ByteSize`. -/
def StatusLine.get_message : StatusLine → String
  | .Ok (some body) ct =>
      "HTTP/1.1 200 OK\r\nContent-Type: " ++ ct.str ++ "\r\nContent-Length: " ++
        toString body.utf8ByteSize ++ "\r\n\r\n" ++ body
  | .Ok none ct =>
      "HTTP/1.1 200 OK\r\nContent-Type: " ++ ct.str ++ "\r\n\r\n"
  | .Created ct =>
      "HTTP/1.1 201 Created\r\nContent-Type: " ++ ct.str ++ "\r\n\r\n"
  | .NotFound => "HTTP/1.1 404 Not Found\r\n\r\n"

/-- The body carried by a `StatusLine` value (only the `Ok` variant can
carry one). -/
def StatusLine.body_of : StatusLine → Option String
  | .Ok body _ => body
  | .Created _ => none
  | .NotFound => none

/-- `fn handle_user_agent`: find the first line of the request data that
contains the substring `"User-Agent:"`; if none exists answer 404,
otherwise answer 200 text/plain whose body is the result of stripping the
`"User-Agent:"` prefix from that line (`None` when the line merely contains
but does not start with the prefix). -/
def handle_user_agent (request_data : List String) : StatusLine :=
  match List.find? (fun header => hasSubstr header "User-Agent:") request_data with
  | none => .NotFound
  | some user_agent => .Ok (rust_strip user_agent "User-Agent:") .TextPlain

/-- `fn find_content_length`: scan the headers with `find_map`; a header
starting with `"Content-Length:"` contributes its second
whitespace-delimited token parsed as `usize`; a header whose token is
missing or unparseable contributes nothing and the scan continues;
default 0. -/
def content_length_of (header : String) : Option Nat :=
  if rust_starts_with header "Content-Length:" then
    ((rust_split_whitespace header).get? 1).bind rust_parse_usize
  else none

def find_content_length (headers : List String) : Nat :=
  (List.findSome? content_length_of headers).getD 0

/-- `fn resolve_path`: the second whitespace-delimited token of the first
line of the request line string. -/
def resolve_path (request : String) : Option String :=
  (rust_lines request).head?.bind (fun request_header => (rust_split_whitespace request_header).get? 1)

/-- `fn handle_file_path`: dispatch on the request method (first token of
the first request line). GET reads the file (404 on failure); POST writes
the last element of the request data (the decoded body) and answers 201;
anything else is 404. Returns the possibly-updated filesystem. -/
def handle_file_path (fs : Fs) (dir : String) (file_path : String)
    (request_data : List String) : StatusLine × Fs :=
  let full_path := path_join dir file_path
  let request_type := request_data.head?.bind (fun s => (rust_split_whitespace s).head?)
  match request_type with
  | some rt =>
      if rt = "GET" then
        match fs_read fs full_path with
        | some file_contents => (.Ok (some file_contents) .ApplicationOctetStream, fs)
        | none => (.NotFound, fs)
      else if rt = "POST" then
        ((.Created .TextPlain), fs_write fs full_path (request_data.getLast?.getD ""))
      else (.NotFound, fs)
  | none => (.NotFound, fs)

/-- `fn path_to_status_line`: `/echo/` prefix first, then `/files/`
prefix, then a `/user-agent` substring match, else 404. -/
def path_to_status_line (fs : Fs) (dir : String) (path : String)
    (request_data : List String) : StatusLine × Fs :=
  match rust_strip path "/echo/" with
  | some s => (.Ok (some s) .TextPlain, fs)
  | none =>
    match rust_strip path "/files/" with
    | some file_path => handle_file_path fs dir file_path request_data
    | none =>
      if hasSubstr path "/user-agent" then (handle_user_agent request_data, fs)
      else (.NotFound, fs)

/-- `fn generate_response`: route on the resolved path of the first
element of the request data; an empty request data vector is the error
case (`none`). The arm `Some("/")` of the source's match is rendered as an
equality test on the resolved path. -/
def generate_response (fs : Fs) (dir : String) (http_request : List String) :
    Option (StatusLine × Fs) :=
  match http_request.get? 0 with
  | some request_line =>
      match resolve_path request_line with
      | some path =>
          if path = "/" then some (.Ok none .TextPlain, fs)
          else some (path_to_status_line fs dir path http_request)
      | none => some (.NotFound, fs)
  | none => none

/-- One step of the `BufRead::lines` iterator over the modelled byte
stream: take up to the next `\n` (consuming it, and removing a `\r` right
before it); at end of stream the final unterminated chunk is a line kept
verbatim. Returns the line together with the unconsumed remainder. -/
def read_line (cs : List Char) : String × List Char :=
  let l := cs.takeWhile (fun c => c != '\n')
  match cs.dropWhile (fun c => c != '\n') with
  | [] => (String.mk l, [])
  | _ :: t => (String.mk (stripTrailingCR l), t)

theorem read_line_length_lt (c : Char) (cs : List Char) :
    (read_line (c :: cs)).2.length < (c :: cs).length := by
  unfold read_line
  have hsub : ((c :: cs).dropWhile (fun x => x != '\n')).Sublist (c :: cs) :=
    List.dropWhile_sublist _
  match hd : (c :: cs).dropWhile (fun x => x != '\n') with
  | [] => simp
  | x :: t =>
      simp only []
      have := hsub.length_le
      rw [hd] at this
      simp only [List.length_cons] at this ⊢
      omega

/-- `fn read_request`: collect lines from the stream while they are
nonempty; the terminating blank line (when present) is consumed and
discarded. Returns the collected header block together with the bytes left
unconsumed in the reader. -/
def read_request_aux : Nat → List Char → List String × List Char
  | 0, _ => ([], [])
  | _ + 1, [] => ([], [])
  | fuel + 1, c :: cs =>
      let lr := read_line (c :: cs)
      if lr.1 = "" then ([], lr.2)
      else
        let p := read_request_aux fuel lr.2
        (lr.1 :: p.1, p.2)

/-- `fn read_request` proper. The fuel `input.length + 1` is always
sufficient because each produced line consumes at least one character of
the stream (`read_line_length_lt`), so the fuel-out branch of
`read_request_aux` is never reached. -/
def read_request (input : List Char) : List String × List Char :=
  read_request_aux (input.length + 1) input

/-- `fn process_request_body`: read exactly `find_content_length` bytes
from the remainder of the stream (`read_exact` fails, yielding `none`,
when fewer remain), decode them, and append the body as the final element
of the request data. -/
def process_request_body (http_request : List String) (rest : List Char) :
    Option (List String) :=
  let content_length := find_content_length http_request
  if rest.length < content_length then none
  else some (http_request ++ [String.mk (rest.take content_length)])

/-- The decode half of the connection handler: `read_request` followed by
`process_request_body`, as composed in `fn handle_connection`. -/
def decode (input : List Char) : Option (List String) :=
  let p := read_request input
  process_request_body p.1 p.2

/-- `fn handle_connection` from the accepted byte stream to the bytes
written back on the socket: decode, route (`generate_response`), and
serialize (`get_message`). `none` means the connection is dropped with no
response bytes written. -/
def handle_connection (fs : Fs) (dir : String) (input : List Char) :
    Option (String × Fs) :=
  match decode input with
  | none => none
  | some http_request =>
      match generate_response fs dir http_request with
      | none => none
      | some (response, fs') => some (response.get_message, fs')

/-! ## Helper lemmas -/

theorem toList_append (a b : String) : (a ++ b).toList = a.toList ++ b.toList :=
  String.data_append a b

theorem isPrefixOf_append_self (p r : List Char) : p.isPrefixOf (p ++ r) = true := by
  induction p with
  | nil => simp [List.isPrefixOf]
  | cons a as ih => simp [List.isPrefixOf, ih]

theorem charsContain_of_isPrefixOf {pat l : List Char} (h : pat.isPrefixOf l = true) :
    charsContain pat l = true := by
  cases l with
  | nil =>
      cases pat with
      | nil => rfl
      | cons c cs => simp [List.isPrefixOf] at h
  | cons c rest => simp [charsContain, h]

theorem hasSubstr_append_self (p v : String) : hasSubstr (p ++ v) p = true := by
  unfold hasSubstr
  apply charsContain_of_isPrefixOf
  rw [toList_append]
  exact isPrefixOf_append_self _ _

theorem rust_strip_append (p v : String) : rust_strip (p ++ v) p = some v := by
  have hp : p.toList.isPrefixOf ((p ++ v).toList) = true := by
    rw [toList_append]; exact isPrefixOf_append_self _ _
  simp only [rust_strip, hp, if_true]
  rw [toList_append, List.drop_left]
  rfl

theorem rust_strip_none {s p : String} (h : p.toList.isPrefixOf s.toList = false) :
    rust_strip s p = none := by
  simp only [rust_strip, h]
  rfl

theorem find?_middle {α : Type} {p : α → Bool} {l : List α} {x : α} (r : List α)
    (hl : ∀ y ∈ l, p y = false) (hx : p x = true) :
    List.find? p (l ++ x :: r) = some x := by
  induction l with
  | nil => simpa using List.find?_cons_of_pos _ hx
  | cons a as ih =>
      rw [List.cons_append, List.find?_cons_of_neg]
      · exact ih (fun y hy => hl y (List.mem_cons_of_mem _ hy))
      · simp [hl a (List.mem_cons_self _ _)]

theorem fs_read_write (fs : Fs) (k v : String) : fs_read (fs_write fs k v) k = some v := by
  simp [fs_read, fs_write]

/-! ## Claim theorems -/

/-- C1: the claim says a connection sending zero bytes gets no response
bytes. In the code, `process_request_body` unconditionally appends the
(empty) body, so `generate_response` sees the nonempty vector `[""]`,
resolves no path, and a `404 Not Found` response IS written; the
`Empty request received` error branch of `generate_response` is
unreachable after `process_request_body` succeeds (second conjunct). -/
theorem c1_empty_stream_writes_404 (fs : Fs) (dir : String) :
    handle_connection fs dir [] = some ("HTTP/1.1 404 Not Found\r\n\r\n", fs) ∧
    ∀ (headers : List String) (rest : List Char) (req : List String),
      process_request_body headers rest = some req → req ≠ [] := by
  constructor
  · rfl
  · intro headers rest req h
    simp only [process_request_body] at h
    split at h
    · exact absurd h (by simp)
    · rw [Option.some_inj] at h
      subst h
      simp

/-- Witness for C1 at the zero-byte stream: a 404 response is written, and
the decoded request vector `[""]` of the empty stream is nonempty. -/
theorem c1_witness :
    handle_connection [] "" [] = some ("HTTP/1.1 404 Not Found\r\n\r\n", []) ∧
    ([""] : List String) ≠ [] :=
  ⟨(c1_empty_stream_writes_404 [] "").1,
   (c1_empty_stream_writes_404 [] "").2 [] [] [""] (by decide)⟩

/-- C2 counterexample: a valid request for path `/` is answered with
`HTTP/1.1 200 OK\r\nContent-Type: text/plain\r\n\r\n`, which is not the
claimed bare `HTTP/1.1 200 OK\r\n\r\n`. -/
theorem c2_counterexample :
    handle_connection [] "/tmp" ("GET / HTTP/1.1\r\n\r\n".toList) =
      some ("HTTP/1.1 200 OK\r\nContent-Type: text/plain\r\n\r\n", []) ∧
    ("HTTP/1.1 200 OK\r\nContent-Type: text/plain\r\n\r\n" : String) ≠
      "HTTP/1.1 200 OK\r\n\r\n" := by
  exact ⟨by decide, by decide⟩

/-- C2 amended: for every request whose resolved target path is exactly
`/`, the routed response is `StatusLine::Ok(None, TextPlain)` and its
encoding is exactly `HTTP/1.1 200 OK\r\nContent-Type: text/plain\r\n\r\n`
(status 200, no body, and a `Content-Type: text/plain` header). -/
theorem c2_root_response (fs : Fs) (dir : String) (request_line : String)
    (rest : List String) (h : resolve_path request_line = some "/") :
    generate_response fs dir (request_line :: rest) = some (.Ok none .TextPlain, fs) ∧
    StatusLine.get_message (.Ok none .TextPlain) =
      "HTTP/1.1 200 OK\r\nContent-Type: text/plain\r\n\r\n" := by
  constructor
  · simp [generate_response, h]
  · rfl

/-- Witness for C2 at the request line `GET / HTTP/1.1`. -/
theorem c2_witness :
    generate_response [] "/tmp" ["GET / HTTP/1.1", ""] =
      some (.Ok none .TextPlain, []) :=
  (c2_root_response [] "/tmp" "GET / HTTP/1.1" [""] (by decide)).1

/-- C3 counterexample: for the header `User-Agent: curl/7.81.0` the body
is ` curl/7.81.0` — the leading space after the colon is NOT trimmed, so
the body is not the claimed `curl/7.81.0`. -/
theorem c3_counterexample :
    handle_user_agent ["GET /user-agent HTTP/1.1", "User-Agent: curl/7.81.0"] =
      .Ok (some " curl/7.81.0") .TextPlain ∧
    (" curl/7.81.0" : String) ≠ "curl/7.81.0" := by
  exact ⟨by rfl, by decide⟩

/-- C3 amended: when the first request line containing `User-Agent:`
begins with that prefix, the response is 200 text/plain whose body is the
line with exactly the literal prefix `User-Agent:` removed — the leading
space after the colon is retained, not trimmed. -/
theorem c3_user_agent_strip_only (pre post : List String) (v : String)
    (hpre : ∀ h ∈ pre, hasSubstr h "User-Agent:" = false) :
    handle_user_agent (pre ++ ("User-Agent:" ++ v) :: post) = .Ok (some v) .TextPlain ∧
    StatusLine.get_message (.Ok (some v) .TextPlain) =
      "HTTP/1.1 200 OK\r\nContent-Type: " ++ "text/plain" ++ "\r\nContent-Length: " ++
        toString v.utf8ByteSize ++ "\r\n\r\n" ++ v := by
  constructor
  · unfold handle_user_agent
    rw [find?_middle post hpre (hasSubstr_append_self _ v)]
    simp only []
    rw [rust_strip_append]
  · rfl

/-- Witness for C3 at the curl example header: the body keeps the space. -/
theorem c3_witness :
    handle_user_agent [("User-Agent:" ++ " curl/7.81.0" : String)] =
      .Ok (some " curl/7.81.0") .TextPlain :=
  (c3_user_agent_strip_only [] [] " curl/7.81.0" (by simp)).1

/-- C4 counterexample: the stream `GET / HTTP/1.1` closes before any blank
line terminating the header block, yet the decode step succeeds (with the
lines read so far plus the empty body) instead of failing as claimed. -/
theorem c4_counterexample :
    decode ("GET / HTTP/1.1".toList) = some ["GET / HTTP/1.1", ""] := by
  decide

/-- C4 amended: the decode step fails exactly when the declared
Content-Length exceeds the number of bytes remaining in the stream after
the header block; a stream that closes before a blank line is not by
itself an error (its lines are returned as the header block). -/
theorem c4_decode_fails_iff (input : List Char) :
    decode input = none ↔
      (read_request input).2.length < find_content_length (read_request input).1 := by
  simp only [decode, process_request_body]
  split
  · simp_all
  · simp_all

/-- C5 counterexample: with headers `Content-Length: abc` then
`Content-Length: 5`, the first matching header fails to parse, yet the
extracted length is 5, not the claimed 0: the scan continues past the
parse failure instead of treating the length as 0. -/
theorem c5_counterexample :
    find_content_length ["Content-Length: abc", "Content-Length: 5"] = 5 ∧
    find_content_length ["Content-Length: abc", "Content-Length: 5"] ≠ 0 := by
  exact ⟨by decide, by decide⟩

/-- C5 amended: a header whose following token is missing or fails to
parse is skipped and the scan continues with the remaining headers; the
first header that starts with `Content-Length:` (case-sensitive) and
whose next whitespace-delimited token parses as a non-negative integer
supplies the length; if no header yields a value the length is 0. -/
theorem c5_content_length_scan (bad good : String) (post : List String) (n : Nat)
    (hbadstart : rust_starts_with bad "Content-Length:" = true)
    (hbad : ((rust_split_whitespace bad).get? 1).bind rust_parse_usize = none)
    (hgood : rust_starts_with good "Content-Length:" = true)
    (hn : ((rust_split_whitespace good).get? 1).bind rust_parse_usize = some n) :
    find_content_length (bad :: post) = find_content_length post ∧
    find_content_length (good :: post) = n ∧
    find_content_length [] = 0 := by
  have h1 : content_length_of bad = none := by
    simp only [content_length_of, hbadstart, if_true, hbad]
  have h2 : content_length_of good = some n := by
    simp only [content_length_of, hgood, if_true, hn]
  refine ⟨?_, ?_, rfl⟩
  · simp only [find_content_length, List.findSome?_cons, h1]
  · simp only [find_content_length, List.findSome?_cons, h2, Option.getD_some]

/-- Witness for C5: `Content-Length: abc` is skipped and the later header
supplies 5; a bare parseable header yields its value; no headers yield 0. -/
theorem c5_witness :
    find_content_length ["Content-Length: abc", "Content-Length: 5"] =
      find_content_length ["Content-Length: 5"] ∧
    find_content_length ["Content-Length: 5", "Content-Length: abc"] = 5 ∧
    find_content_length [] = 0 :=
  ⟨(c5_content_length_scan "Content-Length: abc" "Content-Length: 5"
      ["Content-Length: 5"] 5 (by decide) (by decide) (by decide) (by decide)).1,
   (c5_content_length_scan "Content-Length: abc" "Content-Length: 5"
      ["Content-Length: abc"] 5 (by decide) (by decide) (by decide) (by decide)).2⟩

/-- C6: a request for path `/echo/s` (s without `/`) is routed to
`Ok(Some(s), TextPlain)` and encoded with status 200, content-type
text/plain, a Content-Length equal to the UTF-8 byte length of `s`
(not its character count), and body exactly `s` (no URL decoding). -/
theorem c6_echo_response (fs : Fs) (dir : String) (s : String) (req : List String)
    (hs : '/' ∉ s.toList) :
    path_to_status_line fs dir ("/echo/" ++ s) req = (.Ok (some s) .TextPlain, fs) ∧
    StatusLine.get_message (.Ok (some s) .TextPlain) =
      "HTTP/1.1 200 OK\r\nContent-Type: " ++ "text/plain" ++ "\r\nContent-Length: " ++
        toString s.utf8ByteSize ++ "\r\n\r\n" ++ s := by
  constructor
  · unfold path_to_status_line
    rw [rust_strip_append]
  · rfl

/-- Witness for C6 at `s = "héllo"` (6 UTF-8 bytes, 5 characters): the
Content-Length is the byte count 6. -/
theorem c6_witness :
    path_to_status_line [] "/tmp" ("/echo/" ++ "héllo") ["GET /echo/héllo HTTP/1.1", ""] =
      (.Ok (some "héllo") .TextPlain, []) ∧
    StatusLine.get_message (.Ok (some "héllo") .TextPlain) =
      "HTTP/1.1 200 OK\r\nContent-Type: " ++ "text/plain" ++ "\r\nContent-Length: " ++
        toString (6 : Nat) ++ "\r\n\r\n" ++ "héllo" := by
  have h := c6_echo_response [] "/tmp" "héllo" ["GET /echo/héllo HTTP/1.1", ""] (by decide)
  exact ⟨h.1, by rw [h.2]; rfl⟩

/-- C7: round-trip through the file route. A POST request for path
`/files/name` whose decoded body `B` sits, as `process_request_body`
leaves it, in the final position of the request data, answers 201 Created
and writes `B`; a subsequent GET for the same path against the resulting
filesystem (no intervening writes) answers 200 with body exactly `B`. -/
theorem c7_files_roundtrip (fs : Fs) (dir name B pline gline : String)
    (hdrs hdrs2 : List String)
    (hpost : (rust_split_whitespace pline).head? = some "POST")
    (hget : (rust_split_whitespace gline).head? = some "GET") :
    (path_to_status_line fs dir ("/files/" ++ name) (pline :: (hdrs ++ [B]))).1 =
      .Created .TextPlain ∧
    (path_to_status_line
        (path_to_status_line fs dir ("/files/" ++ name) (pline :: (hdrs ++ [B]))).2
        dir ("/files/" ++ name) (gline :: hdrs2)).1 =
      .Ok (some B) .ApplicationOctetStream := by
  have hecho : rust_strip ("/files/" ++ name) "/echo/" = none := by
    apply rust_strip_none
    rw [toList_append]
    rfl
  have hlast : (pline :: (hdrs ++ [B])).getLast? = some B := by
    rw [show pline :: (hdrs ++ [B]) = (pline :: hdrs) ++ [B] from rfl]
    exact List.getLast?_concat _
  have hfile : handle_file_path fs dir name (pline :: (hdrs ++ [B])) =
      (.Created .TextPlain, fs_write fs (path_join dir name) B) := by
    unfold handle_file_path
    simp only [List.head?_cons, Option.some_bind, hpost, hlast, Option.getD_some]
    rfl
  have hwrite : path_to_status_line fs dir ("/files/" ++ name) (pline :: (hdrs ++ [B])) =
      (.Created .TextPlain, fs_write fs (path_join dir name) B) := by
    unfold path_to_status_line
    rw [hecho]
    simp only []
    rw [rust_strip_append]
    exact hfile
  refine ⟨by rw [hwrite], ?_⟩
  rw [hwrite]
  unfold path_to_status_line
  rw [hecho]
  simp only []
  rw [rust_strip_append]
  unfold handle_file_path
  simp only [List.head?_cons, Option.some_bind, hget]
  simp [fs_read_write]

/-- Witness for C7: POST then GET of `/files/f` with body `hi`. -/
theorem c7_witness :
    (path_to_status_line [] "/d" ("/files/" ++ "f")
        ["POST /files/f HTTP/1.1", "Content-Length: 2", "hi"]).1 =
      .Created .TextPlain ∧
    (path_to_status_line
        (path_to_status_line [] "/d" ("/files/" ++ "f")
          ["POST /files/f HTTP/1.1", "Content-Length: 2", "hi"]).2
        "/d" ("/files/" ++ "f") ["GET /files/f HTTP/1.1", ""]).1 =
      .Ok (some "hi") .ApplicationOctetStream :=
  c7_files_roundtrip [] "/d" "f" "hi" "POST /files/f HTTP/1.1" "GET /files/f HTTP/1.1"
    ["Content-Length: 2"] [""] (by decide) (by decide)

/-- C8: encoder invariant. Whenever a response carries a body, the encoded
bytes carry a `Content-Length` header whose value is the UTF-8 byte length
of the body (first conjunct, giving the exact wire format); whenever it
carries no body, the encoded bytes contain no `Content-Length` substring
at all (second conjunct); and a `201 Created` response never carries a
body (third conjunct). -/
theorem c8_content_length_invariant (s : StatusLine) :
    (∀ (b : String) (ct : ContentType), s = .Ok (some b) ct →
        s.get_message =
          "HTTP/1.1 200 OK\r\nContent-Type: " ++ ct.str ++ "\r\nContent-Length: " ++
            toString b.utf8ByteSize ++ "\r\n\r\n" ++ b) ∧
    (s.body_of = none → hasSubstr s.get_message "Content-Length" = false) ∧
    (∀ ct : ContentType, StatusLine.body_of (.Created ct) = none) := by
  refine ⟨?_, ?_, fun ct => rfl⟩
  · rintro b ct rfl
    rfl
  · intro h
    match s with
    | .Ok (some b) ct => simp [StatusLine.body_of] at h
    | .Ok none ct => cases ct <;> decide
    | .Created ct => cases ct <;> decide
    | .NotFound => decide

/-- Witness for C8: a body of 2 bytes yields `Content-Length: 2`, and the
body-less `201 Created` encoding contains no `Content-Length`. -/
theorem c8_witness :
    StatusLine.get_message (.Ok (some "hi") .TextPlain) =
      "HTTP/1.1 200 OK\r\nContent-Type: text/plain\r\nContent-Length: 2\r\n\r\nhi" ∧
    hasSubstr (StatusLine.get_message (.Created .TextPlain)) "Content-Length" = false := by
  constructor
  · rw [(c8_content_length_invariant (.Ok (some "hi") .TextPlain)).1 "hi" .TextPlain rfl]
    decide
  · exact (c8_content_length_invariant (.Created .TextPlain)).2.1 rfl

/-- C9: when the first request line containing the substring
`User-Agent:` does not begin with that prefix (so `strip_prefix` yields
`None`), the user-agent route still answers 200 with a
`Content-Type: text/plain` header but with no body and no
`Content-Length` header — not 404 and not the header's value. -/
theorem c9_contained_but_not_prefixed (pre post : List String) (h : String)
    (hpre : ∀ x ∈ pre, hasSubstr x "User-Agent:" = false)
    (hcon : hasSubstr h "User-Agent:" = true)
    (hnp : rust_strip h "User-Agent:" = none) :
    handle_user_agent (pre ++ h :: post) = .Ok none .TextPlain ∧
    StatusLine.get_message (.Ok none .TextPlain) =
      "HTTP/1.1 200 OK\r\nContent-Type: text/plain\r\n\r\n" ∧
    hasSubstr (StatusLine.get_message (.Ok none .TextPlain)) "Content-Length" = false := by
  refine ⟨?_, rfl, by decide⟩
  unfold handle_user_agent
  rw [find?_middle post hpre hcon]
  simp only []
  rw [hnp]

/-- Witness for C9 at the header `X-User-Agent: v`. -/
theorem c9_witness :
    handle_user_agent ["X-User-Agent: v"] = .Ok none .TextPlain :=
  (c9_contained_but_not_prefixed [] [] "X-User-Agent: v"
    (by simp) (by decide) (by decide)).1

/-- C10: the decoded body is appended to the same vector as the request
line and headers, and the user-agent route scans that whole vector. For a
request whose path contains `/user-agent`, whose request line and headers
contain no `User-Agent:` substring, but whose body does, the response is
the 200 derived from the body line (its `User-Agent:` prefix-strip), not
404 Not Found. -/
theorem c10_body_scanned_by_user_agent_route
    (fs : Fs) (dir rline body path : String) (hdrs : List String)
    (hres : resolve_path rline = some path)
    (hroot : path ≠ "/")
    (hecho : rust_strip path "/echo/" = none)
    (hfiles : rust_strip path "/files/" = none)
    (hua : hasSubstr path "/user-agent" = true)
    (hno : ∀ x ∈ rline :: hdrs, hasSubstr x "User-Agent:" = false)
    (hbody : hasSubstr body "User-Agent:" = true) :
    generate_response fs dir (rline :: (hdrs ++ [body])) =
      some (.Ok (rust_strip body "User-Agent:") .TextPlain, fs) := by
  unfold generate_response
  rw [show (rline :: (hdrs ++ [body])).get? 0 = some rline from rfl]
  simp only []
  rw [hres]
  simp only []
  rw [if_neg hroot]
  unfold path_to_status_line
  rw [hecho]
  simp only []
  rw [hfiles]
  simp only []
  rw [if_pos hua]
  unfold handle_user_agent
  rw [show rline :: (hdrs ++ [body]) = (rline :: hdrs) ++ body :: [] from rfl]
  rw [find?_middle [] hno hbody]

/-- Witness for C10: a POST to `/user-agent` with no `User-Agent:` header
but the body `User-Agent: x` is answered 200 with body ` x`. -/
theorem c10_witness :
    generate_response [] "/d" ["POST /user-agent HTTP/1.1", "Content-Length: 13", "User-Agent: x"] =
      some (.Ok (rust_strip "User-Agent: x" "User-Agent:") .TextPlain, []) :=
  c10_body_scanned_by_user_agent_route [] "/d" "POST /user-agent HTTP/1.1" "User-Agent: x"
    "/user-agent" ["Content-Length: 13"] (by decide) (by decide) (by decide) (by decide)
    (by decide) (by decide) (by decide)
